import Mathlib

/-!
Verification development for the TaskFlow backend (PrimeTrade repository).

Shallow embedding of the identity / ownership-enforcement core:
  * `src/backend/models/Task.js` and `src/backend/models/User.js` (schemas),
  * `src/backend/controllers/taskController.js` (task CRUD handlers),
  * `src/backend/controllers/userController.js` (profile handlers),
  * `src/backend/middleware/authMiddleware.js` (`protect` guard),
  * `src/unnamed/part_000` (`generateToken`),
  * `src/unnamed/part_001` (`AppError`, `errorHandler`).

MongoDB / Mongoose behaviour that the code relies on (document store,
ObjectId casting, unique index, `$text` search) is embedded explicitly;
external libraries (bcrypt, jsonwebtoken HMAC) are modelled as abstract
computable functions, with comments stating exactly which property of the
library the model keeps.
-/

namespace TaskFlow

/-! String primitives (trim, lowercasing, tokenisation) are given
list-of-characters implementations so that every definition reduces by
kernel computation; they implement the same functions the JavaScript
runtime provides. -/

/-- Drop whitespace from both ends. -/
def trimChars (cs : List Char) : List Char :=
  ((cs.dropWhile Char.isWhitespace).reverse.dropWhile Char.isWhitespace).reverse

/-- JavaScript `String.prototype.trim` / the Mongoose `trim: true`
setter / the express-validator `.trim()` sanitizer. -/
def strTrim (s : String) : String := ⟨trimChars s.data⟩

/-- JavaScript `String.prototype.toLowerCase` (ASCII suffices for the
inputs considered here). -/
def strLower (s : String) : String := ⟨s.data.map Char.toLower⟩

/-- The status enum of the Task schema (`src/backend/models/Task.js`
lines 19-26) and of both express-validator chains
(`taskController.js` lines 16-18 and 37-39): the three accepted values. -/
def validStatuses : List String := ["todo", "in-progress", "completed"]

/-- A task document (`src/backend/models/Task.js`).  `id` is the ObjectId
rendered as its 24-character hex string; `description` and `dueDate` are
optional fields; `user` is the owning user id; `createdAt` / `updatedAt`
come from `timestamps: true`. -/
structure Task where
  id : String
  title : String
  description : Option String
  status : String
  dueDate : Option String
  user : String
  createdAt : Nat
  updatedAt : Nat
deriving DecidableEq, Repr

/-- A Mongoose ObjectId in string form: exactly 24 hexadecimal digits.
`Task.findById` casts its argument to an ObjectId and throws a `CastError`
when this fails. -/
def isValidObjectId (s : String) : Bool :=
  s.length == 24 && s.data.all fun c =>
    c.isDigit || (('a' ≤ c) && (c ≤ 'f')) || (('A' ≤ c) && (c ≤ 'F'))

/-- `Task.findById`: first document whose id equals the given id. -/
def findById (store : List Task) (id : String) : Option Task :=
  store.find? (fun t => t.id == id)

/-- Splitting a character list into maximal alphanumeric runs; the
second argument accumulates the current run in reverse. -/
def tokensAux : List Char → List Char → List String
  | [], acc => if acc.isEmpty then [] else [⟨acc.reverse⟩]
  | c :: cs, acc =>
      if c.isAlphanum then tokensAux cs (c :: acc)
      else if acc.isEmpty then tokensAux cs []
      else ⟨acc.reverse⟩ :: tokensAux cs []

/-- Word tokenisation used by the model of MongoDB `$text` search:
lowercase, split on non-alphanumeric characters, drop empty pieces. -/
def tokenize (s : String) : List String :=
  tokensAux (s.data.map Char.toLower) []

/-- Model of MongoDB `$text : { $search : kw }` against the text index
`{ user: 1, title: 'text', description: 'text' }`
(`src/backend/models/Task.js` line 45): the document matches when some
search term equals (case-insensitively) some word token of the title or
of the description.  MongoDB additionally stems English words; stemming
is not modelled, which does not affect the membership facts proved here
(the inputs used are their own stems). -/
def textMatch (kw : String) (t : Task) : Bool :=
  (tokenize kw).any fun term =>
    (tokenize t.title).contains term
      || (tokenize (t.description.getD "")).contains term

/-- The Mongo query object built by `getTasks`
(`taskController.js` lines 96-113): ownership predicate plus optional
status equality plus optional text search. -/
structure TaskQuery where
  user : String
  status : Option String
  text : Option String
deriving DecidableEq, Repr

/-- Whether a task document matches the query object. -/
def matchesQuery (q : TaskQuery) (t : Task) : Bool :=
  t.user == q.user
    && (match q.status with | some st => t.status == st | none => true)
    && (match q.text with | some kw => textMatch kw t | none => true)

/-- Insert a task into a list kept in descending `createdAt` order. -/
def insertByCreatedDesc (t : Task) : List Task → List Task
  | [] => [t]
  | x :: xs =>
      if x.createdAt ≤ t.createdAt then t :: x :: xs
      else x :: insertByCreatedDesc t xs

/-- `.sort({ createdAt: -1 })`: most-recently-created first. -/
def sortByCreatedDesc : List Task → List Task
  | [] => []
  | x :: xs => insertByCreatedDesc x (sortByCreatedDesc xs)

/-- `Task.find(query).sort({ createdAt: -1 })` (`taskController.js`
line 116). -/
def taskFind (store : List Task) (q : TaskQuery) : List Task :=
  sortByCreatedDesc (store.filter (matchesQuery q))

/-- JavaScript truthiness of an optional query-string parameter:
`undefined` and the empty string are both falsy. -/
def truthy : Option String → Option String
  | some s => if s = "" then none else some s
  | none => none

/-- Result of the `getTasks` handler: 200 with the task list, or an
error status with a message. -/
inductive TasksResult
  | ok (tasks : List Task)
  | err (status : Nat) (message : String)
deriving DecidableEq, Repr

/-- `getTasks` (`taskController.js` lines 92-126): builds
`{ user: req.user._id }`, rejects a (truthy) status outside the enum
with 400, adds `status` and `$text` filters, runs the query sorted by
`createdAt` descending. -/
def getTasks (store : List Task) (principalId : String)
    (search? status? : Option String) : TasksResult :=
  match truthy status? with
  | some st =>
      if !(validStatuses.contains st) then
        .err 400 "Invalid status value. Must be todo, in-progress, or completed"
      else
        .ok (taskFind store { user := principalId, status := some st, text := truthy search? })
  | none =>
      .ok (taskFind store { user := principalId, status := none, text := truthy search? })

/-- The request body of a task create / update call: each field is
present or absent. -/
structure TaskBody where
  title : Option String
  description : Option String
  status : Option String
  dueDate : Option String
deriving DecidableEq, Repr

/-- Model of the express-validator `isISO8601()` check (external
validator.js library, abstracted): accepts the calendar-date core
`YYYY-MM-DD`.  No claim in this development depends on the exact date
grammar. -/
def isISO8601 (s : String) : Bool :=
  match s.data with
  | [y1, y2, y3, y4, '-', m1, m2, '-', d1, d2] =>
      [y1, y2, y3, y4, m1, m2, d1, d2].all Char.isDigit
        && (let m := (m1.toNat - 48) * 10 + (m2.toNat - 48)
            let d := (d1.toNat - 48) * 10 + (d2.toNat - 48)
            decide (1 ≤ m) && decide (m ≤ 12) && decide (1 ≤ d) && decide (d ≤ 31))
  | _ => false

/-- `createTaskValidation` (`taskController.js` lines 7-22): title
required (after trimming) and at most 200 characters; description
optional, at most 1000 characters after trimming; status optional, must
be one of the enum values; dueDate optional, must be an ISO-8601 date.
Returns the `{field, message}` pairs exactly as `errors.array()` maps
them (lines 58-61). -/
def createTaskValidationErrors (b : TaskBody) : List (String × String) :=
  let titleV := strTrim (b.title.getD "")
  (if titleV = "" then [("title", "Title is required")] else [])
    ++ (if titleV.length > 200 then [("title", "Title cannot exceed 200 characters")] else [])
    ++ (match b.description with
        | none => []
        | some d =>
            if (strTrim d).length > 1000 then
              [("description", "Description cannot exceed 1000 characters")]
            else [])
    ++ (match b.status with
        | none => []
        | some s =>
            if validStatuses.contains s then []
            else [("status", "Status must be todo, in-progress, or completed")])
    ++ (match b.dueDate with
        | none => []
        | some d =>
            if isISO8601 d then [] else [("dueDate", "Due date must be a valid date")])

/-- `updateTaskValidation` (`taskController.js` lines 27-43): identical
to creation except that the title is optional (but must not be empty
when supplied). -/
def updateTaskValidationErrors (b : TaskBody) : List (String × String) :=
  (match b.title with
   | none => []
   | some ti =>
       (if strTrim ti = "" then [("title", "Title cannot be empty")] else [])
         ++ (if (strTrim ti).length > 200 then [("title", "Title cannot exceed 200 characters")] else []))
    ++ (match b.description with
        | none => []
        | some d =>
            if (strTrim d).length > 1000 then
              [("description", "Description cannot exceed 1000 characters")]
            else [])
    ++ (match b.status with
        | none => []
        | some s =>
            if validStatuses.contains s then []
            else [("status", "Status must be todo, in-progress, or completed")])
    ++ (match b.dueDate with
        | none => []
        | some d =>
            if isISO8601 d then [] else [("dueDate", "Due date must be a valid date")])

/-- Result of the `createTask` handler. -/
inductive CreateResult
  | created (store : List Task) (task : Task)
  | invalid (errors : List (String × String))
deriving DecidableEq, Repr

/-- HTTP status of a `createTask` outcome (201 on success, 400 on
validation failure, `taskController.js` lines 55 and 76). -/
def CreateResult.statusCode : CreateResult → Nat
  | .created _ _ => 201
  | .invalid _ => 400

/-- `createTask` (`taskController.js` lines 50-84): on validation
failure respond 400; otherwise persist
`{ title, description, status: status || 'todo', dueDate, user: req.user._id }`
with a fresh id and server timestamps.  The express-validator `.trim()`
sanitizers have rewritten `title` and `description` to their trimmed
values by the time the handler reads `req.body`. -/
def createTask (store : List Task) (principalId : String)
    (newId : String) (now : Nat) (b : TaskBody) : CreateResult :=
  let errs := createTaskValidationErrors b
  if errs ≠ [] then .invalid errs
  else
    let t : Task :=
      { id := newId
        title := strTrim (b.title.getD "")
        description := b.description.map strTrim
        status := match b.status with | some s => s | none => "todo"
        dueDate := b.dueDate
        user := principalId
        createdAt := now
        updatedAt := now }
    .created (store ++ [t]) t

/-- Result of the `getTaskById` handler.  The two 404 branches of the
source (task absent, lines 138-143, and task owned by someone else,
lines 146-151) return byte-identical responses
`{success:false, message:'Task not found'}`, so both are the single
constructor `notFound`; `castErr` is the 404 produced by the error
middleware when the id fails ObjectId casting. -/
inductive GetResult
  | ok (task : Task)
  | notFound
  | castErr
deriving DecidableEq, Repr

/-- HTTP status of a `getTaskById` outcome. -/
def GetResult.statusCode : GetResult → Nat
  | .ok _ => 200
  | .notFound => 404
  | .castErr => 404

/-- `getTaskById` (`taskController.js` lines 133-160) composed with the
ObjectId cast (a malformed id makes `findById` throw `CastError`, which
the `errorHandler` in `src/unnamed/part_001` lines 42-44 turns into
404 "Resource not found"). -/
def getTaskById (store : List Task) (principalId : String)
    (rawId : String) : GetResult :=
  if !isValidObjectId rawId then .castErr
  else
    match findById store rawId with
    | none => .notFound
    | some task =>
        if task.user ≠ principalId then .notFound
        else .ok task

/-- Result of the `updateTask` handler. -/
inductive UpdateResult
  | ok (store : List Task) (task : Task)
  | invalid (errors : List (String × String))
  | notFound
  | castErr
  | forbidden
deriving DecidableEq, Repr

/-- HTTP status of an `updateTask` outcome (200 / 400 validation /
404 not found / 404 cast error / 403 not authorized). -/
def UpdateResult.statusCode : UpdateResult → Nat
  | .ok _ _ => 200
  | .invalid _ => 400
  | .notFound => 404
  | .castErr => 404
  | .forbidden => 403

/-- Replace the task with the given id by its updated version. -/
def replaceById (store : List Task) (id : String) (t' : Task) : List Task :=
  store.map (fun t => if t.id == id then t' else t)

/-- `updateTask` (`taskController.js` lines 167-219): validation errors
→ 400; malformed id → `CastError` → 404 via the error middleware; task
absent → 404; owner mismatch → 403; otherwise apply exactly the fields
present in the body and save (which refreshes `updatedAt`). -/
def updateTask (store : List Task) (principalId : String)
    (rawId : String) (now : Nat) (b : TaskBody) : UpdateResult :=
  let errs := updateTaskValidationErrors b
  if errs ≠ [] then .invalid errs
  else if !isValidObjectId rawId then .castErr
  else
    match findById store rawId with
    | none => .notFound
    | some task =>
        if task.user ≠ principalId then .forbidden
        else
          let t' : Task :=
            { task with
              title := match b.title with | some ti => strTrim ti | none => task.title
              description := match b.description with
                             | some d => some (strTrim d)
                             | none => task.description
              status := match b.status with | some s => s | none => task.status
              dueDate := match b.dueDate with | some d => some d | none => task.dueDate
              updatedAt := now }
          .ok (replaceById store rawId t') t'

/-- Result of the `deleteTask` handler. -/
inductive DeleteResult
  | ok (store : List Task)
  | notFound
  | castErr
  | forbidden
deriving DecidableEq, Repr

/-- HTTP status of a `deleteTask` outcome. -/
def DeleteResult.statusCode : DeleteResult → Nat
  | .ok _ => 200
  | .notFound => 404
  | .castErr => 404
  | .forbidden => 403

/-- `deleteTask` (`taskController.js` lines 226-256): malformed id →
`CastError` → 404; task absent → 404; owner mismatch → 403; otherwise
remove the document permanently. -/
def deleteTask (store : List Task) (principalId : String)
    (rawId : String) : DeleteResult :=
  if !isValidObjectId rawId then .castErr
  else
    match findById store rawId with
    | none => .notFound
    | some task =>
        if task.user ≠ principalId then .forbidden
        else .ok (store.filter (fun t => t.id ≠ rawId))

/-- A user document (`src/backend/models/User.js`): id, name, email
(stored lowercased and trimmed), `password` holding the bcrypt hash,
creation timestamp. -/
structure UserRec where
  id : String
  name : String
  email : String
  password : String
  createdAt : Nat
deriving DecidableEq, Repr

/-- The authenticated principal attached to the request by `protect`
(`authMiddleware.js` line 32, `User.findById(decoded.id).select('-password')`):
the user document with the password field structurally absent. -/
structure Principal where
  id : String
  name : String
  email : String
  createdAt : Nat
deriving DecidableEq, Repr

/-- Projection of a user document to its principal (drops `password`). -/
def toPrincipal (u : UserRec) : Principal :=
  { id := u.id, name := u.name, email := u.email, createdAt := u.createdAt }

/-- Model of `bcrypt.hash(plaintext, salt)` (external bcrypt library,
`User.js` lines 44-47): the stored value is the algorithm/cost tag,
the salt, and a digest derived from the plaintext.  The one property of
bcrypt this development uses is that the output is strictly longer than
the plaintext (real bcrypt output is 60 characters beginning "$2b$"),
hence never equal to it. -/
def bcryptHash (salt : String) (pw : String) : String :=
  "$2b$10$" ++ salt ++ "$" ++ pw

/-- The pre-save hook (`User.js` lines 38-48): on creation the password
is always freshly set, so it is rehashed unconditionally. -/
def hashPasswordPreSave (salt : String) (u : UserRec) : UserRec :=
  { u with password := bcryptHash salt u.password }

/-- Model of the schema email regex `/^\S+@\S+\.\S+$/` (`User.js`
line 21): no whitespace anywhere, an `@` preceded by at least one
character, and a later `.` with at least one character between `@` and
`.` and at least one character after the `.`. -/
def emailShapeOk (s : String) : Bool :=
  let cs := s.data
  cs.all (fun c => !c.isWhitespace)
    && (List.range cs.length).any fun i =>
        (List.range cs.length).any fun j =>
          decide (1 ≤ i) && decide (i + 2 ≤ j) && decide (j + 2 ≤ cs.length)
            && (cs.getD i ' ' == '@') && (cs.getD j ' ' == '.')

/-- Normalisation applied by the schema to the email field
(`lowercase: true`, `trim: true`, `User.js` lines 19-20). -/
def normalizeEmail (s : String) : String := strLower (strTrim s)

/-- Mongoose validation errors of the User schema (`User.js` lines
8-32): name required and at most 100 characters (after trimming), email
required and matching the regex, password at least 6 characters.
Validation runs on the plaintext password, before the hashing hook. -/
def userValidationErrors (name email password : String) : List (String × String) :=
  (if strTrim name = "" then [("name", "Name is required")]
   else if (strTrim name).length > 100 then [("name", "Name cannot exceed 100 characters")]
   else [])
    ++ (if normalizeEmail email = "" then [("email", "Email is required")]
        else if !emailShapeOk (normalizeEmail email) then
          [("email", "Please provide a valid email address")]
        else [])
    ++ (if password = "" then [("password", "Password is required")]
        else if password.length < 6 then
          [("password", "Password must be at least 6 characters")]
        else [])

/-- The errors the embedded components can hand to the error middleware,
mirroring the discriminations `errorHandler` performs
(`src/unnamed/part_001` lines 41-88). -/
inductive JsError
  | castError
  | duplicateKey (field : String) (value : String)
  | validationErr (errors : List (String × String))
  | jsonWebTokenErr
  | tokenExpiredErr
  | appError (message : String) (statusCode : Nat)
  | other (message : String)
deriving DecidableEq, Repr

/-- The structured error response produced by the error middleware:
status code, `success:false`, message, and the `errors` array (empty
when the source sends none). -/
structure ErrResponse where
  status : Nat
  success : Bool
  message : String
  errors : List (String × String)
deriving DecidableEq, Repr

/-- `errorHandler` (`src/unnamed/part_001` lines 31-105): `CastError` →
404 "Resource not found"; duplicate key (code 11000) → 400
"field \x27value\x27 already exists"; Mongoose `ValidationError` → 400
"Validation failed" with the field errors; JWT errors → 401; an
`AppError` keeps its own status and message; anything else falls
through to `statusCode || 500` and `message || 'Server Error'`. -/
def errorHandler : JsError → ErrResponse
  | .castError => ⟨404, false, "Resource not found", []⟩
  | .duplicateKey f v => ⟨400, false, f ++ " \x27" ++ v ++ "\x27 already exists", []⟩
  | .validationErr errs => ⟨400, false, "Validation failed", errs⟩
  | .jsonWebTokenErr => ⟨401, false, "Invalid token", []⟩
  | .tokenExpiredErr => ⟨401, false, "Token expired", []⟩
  | .appError m s => ⟨s, false, m, []⟩
  | .other m => ⟨500, false, if m = "" then "Server Error" else m, []⟩

/-- The document a registration would store: schema setters applied to
name and email, password hashed by the pre-save hook. -/
def newUserDoc (newId salt : String) (now : Nat)
    (name email password : String) : UserRec :=
  hashPasswordPreSave salt
    { id := newId, name := strTrim name, email := normalizeEmail email
      password := password, createdAt := now }

/-- `User.create` composed with the schema: validate the shape (before
any hook), run the hashing pre-save hook, then insert — where the
storage layer's unique index on `email` (`User.js` line 18) rejects a
document whose normalised email is already stored, with the Mongo
duplicate-key error (code 11000).  Returns the new store and the stored
document, or the error handed to the middleware. -/
def userCreate (store : List UserRec) (newId : String) (salt : String)
    (now : Nat) (name email password : String) :
    Except JsError (List UserRec × UserRec) :=
  if userValidationErrors name email password ≠ [] then
    .error (.validationErr (userValidationErrors name email password))
  else if store.any (fun u => u.email == (newUserDoc newId salt now name email password).email) then
    .error (.duplicateKey "email" (newUserDoc newId salt now name email password).email)
  else
    .ok (store ++ [newUserDoc newId salt now name email password],
      newUserDoc newId salt now name email password)

/-- `this.toObject()`: the user document as the field list the
serializer would walk. -/
def userToObject (u : UserRec) : List (String × String) :=
  [("_id", u.id), ("name", u.name), ("email", u.email),
   ("password", u.password), ("createdAt", toString u.createdAt), ("__v", "0")]

/-- `userSchema.methods.toJSON` (`User.js` lines 63-68): the object with
the `password` and `__v` keys deleted. -/
def userToJSON (u : UserRec) : List (String × String) :=
  (userToObject u).filter (fun kv => kv.1 ≠ "password" && kv.1 ≠ "__v")

/-- A decoded JWT as the client carries it: payload `{id}`, issued-at,
expiry, and the signature value. -/
structure Token where
  payloadId : String
  iat : Nat
  exp : Nat
  sig : Nat
deriving DecidableEq, Repr

/-- Numeric code of a string, used by the abstract signature model. -/
def strCode (s : String) : Nat :=
  s.data.foldl (fun a c => a * 131 + c.toNat + 1) 7

/-- Model of the HMAC-SHA256 signature of `jsonwebtoken` (external
library): an abstract keyed function of the secret and the signed
claims.  Verification recomputes it and compares. -/
def hmacSign (secret : Nat) (payloadId : String) (iat exp : Nat) : Nat :=
  strCode payloadId + 31 * iat + 37 * exp + 41 * secret

/-- `generateToken` (`src/unnamed/part_000` lines 8-19):
`jwt.sign({id: userId}, secret, {expiresIn: '1d'})` — payload carries
the user id, `iat := now`, `exp := now + 86400` (one day in seconds). -/
def generateToken (secret : Nat) (now : Nat) (userId : String) : Token :=
  { payloadId := userId, iat := now, exp := now + 86400
    sig := hmacSign secret userId now (now + 86400) }

/-- The two failure kinds of `jwt.verify`: `JsonWebTokenError` (bad
signature / malformed) and `TokenExpiredError`. -/
inductive VerifyError
  | invalidSignature
  | expired
deriving DecidableEq, Repr

/-- Model of `jwt.verify(token, secret)` at clock time `now`: the
signature is checked first, then the `exp` claim
(`TokenExpiredError` exactly when `now ≥ exp`, as jsonwebtoken rejects
`clockTimestamp >= exp`).  On success the payload id is returned. -/
def jwtVerify (secret now : Nat) (t : Token) : Except VerifyError String :=
  if t.sig ≠ hmacSign secret t.payloadId t.iat t.exp then .error .invalidSignature
  else if t.exp ≤ now then .error .expired
  else .ok t.payloadId

/-- Outcome of the `protect` middleware: the request proceeds with the
principal attached, or is answered 401 with a message. -/
inductive AuthResult
  | ok (principal : Principal)
  | err (status : Nat) (message : String)
deriving DecidableEq, Repr

/-- `protect` (`authMiddleware.js` lines 11-66): no cookie token → 401
"no token provided"; `jwt.verify` throws `JsonWebTokenError` → 401
"invalid token"; throws `TokenExpiredError` → 401 "token expired"; the
decoded id resolves to no user → 401 "user not found"; otherwise the
request continues with `req.user` set to the user minus its password. -/
def protect (users : List UserRec) (secret now : Nat)
    (cookieToken : Option Token) : AuthResult :=
  match cookieToken with
  | none => .err 401 "Not authorized, no token provided"
  | some t =>
      match jwtVerify secret now t with
      | .error .invalidSignature => .err 401 "Not authorized, invalid token"
      | .error .expired => .err 401 "Not authorized, token expired"
      | .ok uid =>
          match users.find? (fun u => u.id == uid) with
          | none => .err 401 "Not authorized, user not found"
          | some u => .ok (toPrincipal u)

/-- Membership is invariant under the descending-`createdAt` insertion. -/
theorem mem_insertByCreatedDesc (t x : Task) (l : List Task) :
    x ∈ insertByCreatedDesc t l ↔ x = t ∨ x ∈ l := by
  induction l with
  | nil => simp [insertByCreatedDesc]
  | cons y ys ih =>
      by_cases h : y.createdAt ≤ t.createdAt
      · simp [insertByCreatedDesc, h]
      · simp [insertByCreatedDesc, h, ih]
        tauto

/-- Membership is invariant under the sort. -/
theorem mem_sortByCreatedDesc (x : Task) (l : List Task) :
    x ∈ sortByCreatedDesc l ↔ x ∈ l := by
  induction l with
  | nil => simp [sortByCreatedDesc]
  | cons y ys ih =>
      simp [sortByCreatedDesc, mem_insertByCreatedDesc, ih]

/-- Membership in a `taskFind` result is matching the query and being in
the store. -/
theorem mem_taskFind (store : List Task) (q : TaskQuery) (t : Task) :
    t ∈ taskFind store q ↔ t ∈ store ∧ matchesQuery q t = true := by
  simp [taskFind, mem_sortByCreatedDesc, List.mem_filter]

/-- Every task in a successful `getTasks` response comes from the store
and is owned by the requesting principal. -/
theorem getTasks_ok_user (store : List Task) (p : String) (s q : Option String)
    (ts : List Task) (h : getTasks store p s q = .ok ts) :
    ∀ t ∈ ts, t ∈ store ∧ t.user = p := by
  intro t ht
  unfold getTasks at h
  cases hq : truthy q with
  | none =>
      rw [hq] at h
      injection h with h'
      subst h'
      obtain ⟨hs, hm⟩ := (mem_taskFind store _ t).mp ht
      refine ⟨hs, ?_⟩
      simp [matchesQuery] at hm
      exact hm.1
  | some st =>
      rw [hq] at h
      cases hv : validStatuses.contains st with
      | false =>
          have hv' : ¬ st ∈ validStatuses := by simpa using hv
          simp [hv'] at h
      | true =>
          have hv' : st ∈ validStatuses := by simpa using hv
          simp [hv'] at h
          subst h
          obtain ⟨hs, hm⟩ := (mem_taskFind store _ t).mp ht
          refine ⟨hs, ?_⟩
          simp [matchesQuery] at hm
          exact hm.1.1

/-- The bcrypt model never returns its plaintext input (the output is
strictly longer). -/
theorem bcryptHash_ne (salt pw : String) : bcryptHash salt pw ≠ pw := by
  intro h
  have h2 := congrArg String.length h
  rw [bcryptHash] at h2
  simp [String.length_append] at h2
  exact absurd h2.1.1 (by decide)

/-- The serialized user object never carries a password key, whatever
the document holds. -/
theorem userToJSON_no_password (u : UserRec) :
    ∀ kv ∈ userToJSON u, kv.1 ≠ "password" := by
  intro kv hkv
  simp [userToJSON, userToObject] at hkv
  rcases hkv with h | h | h | h <;> simp [h]

/-- A body whose status field is present but outside the enum fails the
creation validator chain. -/
theorem createErrors_of_bad_status (b : TaskBody) (st : String)
    (hbs : b.status = some st) (hst : ¬ st ∈ validStatuses) :
    createTaskValidationErrors b ≠ [] := by
  intro hempty
  rw [createTaskValidationErrors] at hempty
  simp [hbs, hst, List.append_eq_nil] at hempty

/-- A body whose status field is present but outside the enum fails the
update validator chain. -/
theorem updateErrors_of_bad_status (b : TaskBody) (st : String)
    (hbs : b.status = some st) (hst : ¬ st ∈ validStatuses) :
    updateTaskValidationErrors b ≠ [] := by
  intro hempty
  rw [updateTaskValidationErrors] at hempty
  simp [hbs, hst, List.append_eq_nil] at hempty

/-- A body that passes the creation validator chain can only carry a
status inside the enum. -/
theorem createErrors_nil_status (b : TaskBody) (st : String)
    (hnil : createTaskValidationErrors b = []) (hbs : b.status = some st) :
    st ∈ validStatuses := by
  by_contra hst
  exact createErrors_of_bad_status b st hbs hst hnil

/-- A body that passes the update validator chain can only carry a
status inside the enum. -/
theorem updateErrors_nil_status (b : TaskBody) (st : String)
    (hnil : updateTaskValidationErrors b = []) (hbs : b.status = some st) :
    st ∈ validStatuses := by
  by_contra hst
  exact updateErrors_of_bad_status b st hbs hst hnil

/-! ### Spec-side definitions used for refinement comparisons -/

/-- The status set as §3 / §8 of the spec words it
("closed enum {not-started, in-progress, completed}"), kept separate
from the source's `validStatuses` so the two can be compared. -/
def specStatusSet : List String := ["not-started", "in-progress", "completed"]

/-- Prefix test over character lists (kernel-computable). -/
def isPrefixAux : List Char → List Char → Bool
  | [], _ => true
  | _ :: _, [] => false
  | a :: as, b :: bs => a == b && isPrefixAux as bs

/-- Whether `pat` occurs as a contiguous run inside the list. -/
def occursIn (pat : List Char) : List Char → Bool
  | [] => isPrefixAux pat []
  | c :: cs => isPrefixAux pat (c :: cs) || occursIn pat cs

/-- Whether `sub` is a substring of `s`. -/
def containsSubstr (s sub : String) : Bool := occursIn sub.data s.data

/-- The search predicate as §4.4 / §8 of the spec word it: "the keyword
occurs case-insensitively in title OR description" as a substring, kept
separate from the source-derived `textMatch` so the two can be
compared. -/
def specSubstringMatch (kw : String) (t : Task) : Bool :=
  containsSubstr (strLower t.title) (strLower kw)
    || containsSubstr (strLower (t.description.getD "")) (strLower kw)

/-! ### Concrete fixtures for witnesses and counterexamples -/

/-- A user id. -/
def idA : String := "111111111111111111111111"

/-- A second, distinct user id. -/
def idB : String := "222222222222222222222222"

/-- A task id. -/
def tid1 : String := "aaaaaaaaaaaaaaaaaaaaaaaa"

/-- A second task id. -/
def tid2 : String := "bbbbbbbbbbbbbbbbbbbbbbbb"

/-- A fresh task id. -/
def tid3 : String := "cccccccccccccccccccccccc"

/-- A task owned by the first user whose title contains "foo" as a
substring but not as a word token. -/
def taskA : Task :=
  { id := tid1, title := "xfooy", description := none, status := "todo"
    dueDate := none, user := idA, createdAt := 5, updatedAt := 5 }

/-- A completed task owned by the second user whose description has
"foo" as a word token. -/
def taskB : Task :=
  { id := tid2, title := "Deploy", description := some "hello foo world"
    status := "completed", dueDate := none, user := idB, createdAt := 9, updatedAt := 9 }

/-- A two-user store. -/
def sampleStore : List Task := [taskA, taskB]

/-- An update body with every field absent (passes the update
validators). -/
def emptyBody : TaskBody :=
  { title := none, description := none, status := none, dueDate := none }

/-! ### Claims -/

/-- C1: for any two distinct authenticated users A and B, each owning at
least one task, `getTasks` invoked under A's principal returns only
tasks whose owner is A and never a task owned by B. -/
theorem ownership_isolation (store : List Task) (A B : String)
    (search? status? : Option String) (ts : List Task)
    (_hA : ∃ t ∈ store, t.user = A) (_hB : ∃ t ∈ store, t.user = B)
    (hAB : A ≠ B) (hres : getTasks store A search? status? = .ok ts) :
    ∀ t ∈ ts, t.user = A ∧ t.user ≠ B := by
  intro t ht
  obtain ⟨-, hu⟩ := getTasks_ok_user store A search? status? ts hres t ht
  refine ⟨hu, ?_⟩
  rw [hu]
  exact hAB

/-- C1 witness: the two-user store, listing under the first user; the
returned task is the first user's and not the second's. -/
theorem ownership_isolation_witness :
    taskA.user = idA ∧ taskA.user ≠ idB :=
  ownership_isolation sampleStore idA idB none none [taskA]
    (by decide) (by decide) (by decide) (by decide) taskA (by decide)

/-- C2: a task that exists but belongs to another user is answered 404
by `getTaskById` — with the very response a nonexistent task gets —
while `updateTask` (on a body passing validation) and `deleteTask` on
that same task are answered 403. -/
theorem read_write_asymmetry (store : List Task) (p rawId missingId : String)
    (t : Task) (now : Nat) (b : TaskBody)
    (hid : isValidObjectId rawId = true)
    (hfind : findById store rawId = some t)
    (hown : t.user ≠ p)
    (hbody : updateTaskValidationErrors b = [])
    (hmid : isValidObjectId missingId = true)
    (hmiss : findById store missingId = none) :
    getTaskById store p rawId = .notFound ∧
    (getTaskById store p rawId).statusCode = 404 ∧
    getTaskById store p missingId = getTaskById store p rawId ∧
    updateTask store p rawId now b = .forbidden ∧
    (updateTask store p rawId now b).statusCode = 403 ∧
    deleteTask store p rawId = .forbidden ∧
    (deleteTask store p rawId).statusCode = 403 := by
  have hg : getTaskById store p rawId = .notFound := by
    simp [getTaskById, hid, hfind, hown]
  have hgm : getTaskById store p missingId = .notFound := by
    simp [getTaskById, hmid, hmiss]
  have hu : updateTask store p rawId now b = .forbidden := by
    simp [updateTask, hbody, hid, hfind, hown]
  have hd : deleteTask store p rawId = .forbidden := by
    simp [deleteTask, hid, hfind, hown]
  refine ⟨hg, ?_, ?_, hu, ?_, hd, ?_⟩ <;>
    simp [hg, hgm, hu, hd, GetResult.statusCode, UpdateResult.statusCode,
      DeleteResult.statusCode]

/-- C2 witness: the first user fetching / updating / deleting the
second user's task, and fetching an absent id. -/
theorem read_write_asymmetry_witness :
    getTaskById sampleStore idA tid2 = .notFound ∧
    (getTaskById sampleStore idA tid2).statusCode = 404 ∧
    getTaskById sampleStore idA tid3 = getTaskById sampleStore idA tid2 ∧
    updateTask sampleStore idA tid2 7 emptyBody = .forbidden ∧
    (updateTask sampleStore idA tid2 7 emptyBody).statusCode = 403 ∧
    deleteTask sampleStore idA tid2 = .forbidden ∧
    (deleteTask sampleStore idA tid2).statusCode = 403 :=
  read_write_asymmetry sampleStore idA tid2 tid3 taskB 7 emptyBody
    (by decide) (by decide) (by decide) (by decide) (by decide) (by decide)

/-- C4: a successfully created user is stored with a password different
from the supplied plaintext, and its JSON serialization carries no
password field. -/
theorem password_confidentiality (store : List UserRec) (newId salt : String)
    (now : Nat) (name email pw : String) (store' : List UserRec) (u : UserRec)
    (h : userCreate store newId salt now name email pw = .ok (store', u)) :
    u.password ≠ pw ∧ ∀ kv ∈ userToJSON u, kv.1 ≠ "password" := by
  refine ⟨?_, userToJSON_no_password u⟩
  rw [userCreate] at h
  split at h
  · cases h
  · split at h
    · cases h
    · injection h with h'
      rw [Prod.ext_iff] at h'
      obtain ⟨-, h2⟩ := h'
      dsimp only at h2
      rw [← h2]
      exact bcryptHash_ne salt pw

/-- The user document stored by the registration used as the C4
witness. -/
def wUser : UserRec :=
  { id := "dddddddddddddddddddddddd", name := "Ann", email := "ann@x.com"
    password := bcryptHash "SALT" "secret1", createdAt := 3 }

/-- C4 witness: a concrete registration. -/
theorem password_confidentiality_witness :
    wUser.password ≠ "secret1" ∧ ∀ kv ∈ userToJSON wUser, kv.1 ≠ "password" :=
  password_confidentiality [] "dddddddddddddddddddddddd" "SALT" 3
    "Ann" "ann@x.com" "secret1" [wUser] wUser (by rfl)

/-- C5: verifying a freshly issued token at its issuance time yields the
same user id, and the token expires exactly 86400 seconds (one day)
after its issued-at claim. -/
theorem token_roundtrip (secret now : Nat) (userId : String) :
    jwtVerify secret now (generateToken secret now userId) = .ok userId ∧
    (generateToken secret now userId).exp = (generateToken secret now userId).iat + 86400 := by
  constructor
  · simp [jwtVerify, generateToken]
  · rfl

/-- C8: creating a user whose (normalised, hence case-insensitively
compared) email is already stored fails with an error the translator
surfaces as status 400 — never 500 — and no record is inserted. -/
theorem email_uniqueness (store : List UserRec) (newId salt : String)
    (now : Nat) (name email pw : String)
    (hdup : ∃ u ∈ store, u.email = normalizeEmail email) :
    (∃ e, userCreate store newId salt now name email pw = .error e ∧
        (errorHandler e).status = 400 ∧ (errorHandler e).status ≠ 500) ∧
    ∀ store' u, userCreate store newId salt now name email pw ≠ .ok (store', u) := by
  have hany : (store.any fun u => u.email == (newUserDoc newId salt now name email pw).email) = true := by
    obtain ⟨u, hu, he⟩ := hdup
    rw [List.any_eq_true]
    exact ⟨u, hu, by simp [newUserDoc, hashPasswordPreSave, he]⟩
  by_cases herrs : userValidationErrors name email pw = []
  · have hres : userCreate store newId salt now name email pw =
        .error (.duplicateKey "email" (newUserDoc newId salt now name email pw).email) := by
      simp [userCreate, herrs, hany]
    exact ⟨⟨_, hres, rfl, by simp [errorHandler]⟩, fun store' u h => by rw [hres] at h; cases h⟩
  · have hres : userCreate store newId salt now name email pw =
        .error (.validationErr (userValidationErrors name email pw)) := by
      simp [userCreate, herrs]
    exact ⟨⟨_, hres, rfl, by simp [errorHandler]⟩, fun store' u h => by rw [hres] at h; cases h⟩

/-- C8 witness: re-registering the stored email with different case. -/
theorem email_uniqueness_witness :
    (∃ e, userCreate [wUser] "eeeeeeeeeeeeeeeeeeeeeeee" "S2" 9 "Ann2" "ANN@x.com" "hunter2" = .error e ∧
        (errorHandler e).status = 400 ∧ (errorHandler e).status ≠ 500) ∧
    ∀ store' u, userCreate [wUser] "eeeeeeeeeeeeeeeeeeeeeeee" "S2" 9 "Ann2" "ANN@x.com" "hunter2" ≠ .ok (store', u) :=
  email_uniqueness [wUser] "eeeeeeeeeeeeeeeeeeeeeeee" "S2" 9 "Ann2" "ANN@x.com" "hunter2"
    ⟨wUser, by decide, by decide⟩

/-- The task stored by the C9 counterexample's creation call. -/
def c9task : Task :=
  { id := tid3, title := "Write spec", description := none, status := "todo"
    dueDate := none, user := idA, createdAt := 7, updatedAt := 7 }

/-- C9 counterexample: creating `{title:"Write spec"}` with no status
field persists status "todo", not the claimed "not-started". -/
theorem default_status_counterexample :
    createTask [] idA tid3 7
        { title := some "Write spec", description := none, status := none, dueDate := none } =
      .created [c9task] c9task ∧
    c9task.status = "todo" ∧ ¬ c9task.status = "not-started" := by decide

/-- C9 (amended): a task created without a status field is persisted
with status "todo" (the code's default — the spec's "not-started" does
not occur) and owner equal to the principal's id. -/
theorem default_status_owner (store : List Task) (p newId : String) (now : Nat)
    (b : TaskBody) (hb : b.status = none) (store' : List Task) (t : Task)
    (h : createTask store p newId now b = .created store' t) :
    t.status = "todo" ∧ t.user = p := by
  rw [createTask] at h
  split at h
  · cases h
  · injection h with h1 h2
    rw [← h2, hb]
    exact ⟨rfl, rfl⟩

/-- C9 witness: the counterexample's creation call, through the amended
theorem. -/
theorem default_status_owner_witness :
    c9task.status = "todo" ∧ c9task.user = idA :=
  default_status_owner [] idA tid3 7
    { title := some "Write spec", description := none, status := none, dueDate := none }
    rfl [c9task] c9task (by rfl)

/-- C10 counterexample: an update whose task id is malformed but whose
body also fails validation is answered 400 (validation), not 404 — the
validator runs before the id is cast. -/
theorem malformed_id_counterexample :
    isValidObjectId "zzz" = false ∧
    (updateTask [] idA "zzz" 0
        { title := none, description := none, status := some "bogus", dueDate := none }).statusCode = 400 := by
  decide

/-- C10 (amended): a syntactically malformed task id makes `getTaskById`
and `deleteTask` fail 404 through the `CastError` branch of the error
middleware, and `updateTask` likewise provided its body passes
validation (an invalid body is answered 400 before the id is ever
inspected); none of the three produces a 500. -/
theorem malformed_id_not_found (store : List Task) (p rawId : String)
    (now : Nat) (b : TaskBody)
    (hid : isValidObjectId rawId = false)
    (hbody : updateTaskValidationErrors b = []) :
    getTaskById store p rawId = .castErr ∧
    (getTaskById store p rawId).statusCode = 404 ∧
    deleteTask store p rawId = .castErr ∧
    (deleteTask store p rawId).statusCode = 404 ∧
    updateTask store p rawId now b = .castErr ∧
    (updateTask store p rawId now b).statusCode = 404 ∧
    errorHandler .castError = ⟨404, false, "Resource not found", []⟩ := by
  have hg : getTaskById store p rawId = .castErr := by simp [getTaskById, hid]
  have hd : deleteTask store p rawId = .castErr := by simp [deleteTask, hid]
  have hu : updateTask store p rawId now b = .castErr := by
    simp [updateTask, hbody, hid]
  refine ⟨hg, ?_, hd, ?_, hu, ?_, rfl⟩ <;>
    simp [hg, hd, hu, GetResult.statusCode, DeleteResult.statusCode,
      UpdateResult.statusCode]

/-- C10 witness: the malformed id "zzz" against a valid (empty) body. -/
theorem malformed_id_not_found_witness :
    getTaskById sampleStore idA "zzz" = .castErr ∧
    (getTaskById sampleStore idA "zzz").statusCode = 404 ∧
    deleteTask sampleStore idA "zzz" = .castErr ∧
    (deleteTask sampleStore idA "zzz").statusCode = 404 ∧
    updateTask sampleStore idA "zzz" 0 emptyBody = .castErr ∧
    (updateTask sampleStore idA "zzz" 0 emptyBody).statusCode = 404 ∧
    errorHandler .castError = ⟨404, false, "Resource not found", []⟩ :=
  malformed_id_not_found sampleStore idA "zzz" 0 emptyBody (by decide) (by decide)

/-- C6 counterexample: the code's enum is {todo, in-progress,
completed}, not the claimed {not-started, in-progress, completed} —
"todo", outside the claimed set, is accepted at creation (201), while
"not-started", inside the claimed set, is rejected (400). -/
theorem status_enum_spec_counterexample :
    ("todo" ∈ specStatusSet → False) ∧
    (createTask [] idA tid3 0
        { title := some "t", description := none, status := some "todo", dueDate := none }).statusCode = 201 ∧
    (createTask [] idA tid3 0
        { title := some "t", description := none, status := some "not-started", dueDate := none }).statusCode = 400 := by
  decide

/-- C6 (amended): every status value outside the code's closed set
{todo, in-progress, completed} is rejected with 400 at task creation
and update; supplied (non-empty) as a list filter it is rejected with
400 as well; and neither creation nor update ever stores a task with a
status outside this set. -/
theorem status_enum_closure
    (st : String) (store store₂ store₃ : List Task)
    (p newId rawId : String) (now : Nat) (b b₂ b₃ : TaskBody)
    (search? : Option String) (t₂ t₃ : Task)
    (hst : ¬ st ∈ validStatuses) (hne : st ≠ "") (hbs : b.status = some st)
    (hinv : ∀ t ∈ store, t.status ∈ validStatuses)
    (hc : createTask store p newId now b₂ = .created store₂ t₂)
    (hu : updateTask store p rawId now b₃ = .ok store₃ t₃) :
    (createTask store p newId now b).statusCode = 400 ∧
    (updateTask store p rawId now b).statusCode = 400 ∧
    getTasks store p search? (some st) =
      .err 400 "Invalid status value. Must be todo, in-progress, or completed" ∧
    (∀ t ∈ store₂, t.status ∈ validStatuses) ∧
    (∀ t ∈ store₃, t.status ∈ validStatuses) := by
  refine ⟨?_, ?_, ?_, ?_, ?_⟩
  · have h := createErrors_of_bad_status b st hbs hst
    simp [createTask, h, CreateResult.statusCode]
  · have h := updateErrors_of_bad_status b st hbs hst
    simp [updateTask, h, UpdateResult.statusCode]
  · simp [getTasks, truthy, hne, hst]
  · rw [createTask] at hc
    split at hc
    · cases hc
    · next hnil =>
        rw [not_not] at hnil
        injection hc with h1 h2
        intro t ht
        rw [← h1] at ht
        rcases List.mem_append.mp ht with hmem | hmem
        · exact hinv t hmem
        · rw [List.mem_singleton] at hmem
          subst hmem
          cases hbs2 : b₂.status with
          | none => simp [hbs2, validStatuses]
          | some s =>
              have := createErrors_nil_status b₂ s hnil hbs2
              simpa [hbs2] using this
  · rw [updateTask] at hu
    split at hu
    · cases hu
    · next hnil =>
        rw [not_not] at hnil
        split at hu
        · cases hu
        · split at hu
          · cases hu
          · next task hfind =>
              split at hu
              · cases hu
              · injection hu with h1 h2
                intro t ht
                rw [← h1] at ht
                rw [replaceById, List.mem_map] at ht
                obtain ⟨x, hx, hxt⟩ := ht
                by_cases hxi : (x.id == rawId) = true
                · rw [if_pos hxi] at hxt
                  subst hxt
                  cases hbs3 : b₃.status with
                  | none =>
                      have : task ∈ store := List.mem_of_find?_eq_some hfind
                      simpa [hbs3] using hinv task this
                  | some s =>
                      have := updateErrors_nil_status b₃ s hnil hbs3
                      simpa [hbs3] using this
                · rw [if_neg hxi] at hxt
                  subst hxt
                  exact hinv x hx

/-- The task the C6 witness's creation call stores. -/
def wTaskC : Task :=
  { id := tid3, title := "t", description := none, status := "completed"
    dueDate := none, user := idA, createdAt := 7, updatedAt := 7 }

/-- The task the C6 witness's update call stores. -/
def wTaskA2 : Task :=
  { id := tid1, title := "xfooy", description := none, status := "in-progress"
    dueDate := none, user := idA, createdAt := 5, updatedAt := 7 }

/-- C6 witness: "bogus" rejected everywhere; a valid creation and a
valid update both leave the store closed under the enum. -/
theorem status_enum_closure_witness :
    (createTask [taskA] idA tid3 7
        { title := some "t", description := none, status := some "bogus", dueDate := none }).statusCode = 400 ∧
    (updateTask [taskA] idA tid1 7
        { title := some "t", description := none, status := some "bogus", dueDate := none }).statusCode = 400 ∧
    getTasks [taskA] idA none (some "bogus") =
      .err 400 "Invalid status value. Must be todo, in-progress, or completed" ∧
    (∀ t ∈ [taskA, wTaskC], t.status ∈ validStatuses) ∧
    (∀ t ∈ [wTaskA2], t.status ∈ validStatuses) :=
  status_enum_closure "bogus" [taskA] [taskA, wTaskC] [wTaskA2] idA tid3 tid1 7
    { title := some "t", description := none, status := some "bogus", dueDate := none }
    { title := some "t", description := none, status := some "completed", dueDate := none }
    { title := none, description := none, status := some "in-progress", dueDate := none }
    none wTaskC wTaskA2
    (by decide) (by decide) rfl (by decide) (by decide) (by decide)

/-- C7 counterexample: "foo" occurs case-insensitively as a substring
of the title "xfooy" of the caller's own task, yet the `$text`-backed
search returns nothing — MongoDB text search matches word tokens, not
substrings. -/
theorem text_search_counterexample :
    specSubstringMatch "foo" taskA = true ∧ taskA.user = idA ∧
    getTasks [taskA] idA (some "foo") none = .ok [] := by decide

/-- C7 (amended): a successful search returns exactly the caller's
tasks in which some token of the keyword matches (case-insensitively) a
whole word token of the title or of the description — MongoDB `$text`
word matching, not substring matching — and adding a status filter
yields exactly the intersection of the search result and the
status-filtered result. -/
theorem filter_composition (store : List Task) (A kw st : String)
    (ts₁ ts₂ ts₃ : List Task) (t : Task)
    (hkw : kw ≠ "") (hst : st ∈ validStatuses)
    (h1 : getTasks store A (some kw) none = .ok ts₁)
    (h2 : getTasks store A none (some st) = .ok ts₂)
    (h3 : getTasks store A (some kw) (some st) = .ok ts₃) :
    (t ∈ ts₁ ↔ t ∈ store ∧ t.user = A ∧ textMatch kw t = true) ∧
    (t ∈ ts₂ ↔ t ∈ store ∧ t.user = A ∧ t.status = st) ∧
    (t ∈ ts₃ ↔ t ∈ ts₁ ∧ t ∈ ts₂) := by
  have hstne : st ≠ "" := by
    intro h
    rw [h] at hst
    simp [validStatuses] at hst
  have hc : validStatuses.contains st = true := by simpa using hst
  rw [getTasks] at h1 h2 h3
  simp only [truthy, if_neg hkw, if_neg hstne, hc] at h1 h2 h3
  simp at h1 h2 h3
  subst h1; subst h2; subst h3
  refine ⟨?_, ?_, ?_⟩
  · rw [mem_taskFind]
    simp [matchesQuery]
  · rw [mem_taskFind]
    simp [matchesQuery]
  · rw [mem_taskFind, mem_taskFind, mem_taskFind]
    simp [matchesQuery]
    tauto

/-- C7 witness: searching "foo" under the second user's principal, with
and without the "completed" status filter. -/
theorem filter_composition_witness :
    (taskB ∈ [taskB] ↔ taskB ∈ sampleStore ∧ taskB.user = idB ∧ textMatch "foo" taskB = true) ∧
    (taskB ∈ [taskB] ↔ taskB ∈ sampleStore ∧ taskB.user = idB ∧ taskB.status = "completed") ∧
    (taskB ∈ [taskB] ↔ taskB ∈ [taskB] ∧ taskB ∈ [taskB]) :=
  filter_composition sampleStore idB "foo" "completed" [taskB] [taskB] [taskB] taskB
    (by decide) (by decide) (by decide) (by decide) (by decide)

/-- Unfolded form of `protect` on a presented token: signature checked
first, then expiry, then resolution of the subject user. -/
theorem protect_some (users : List UserRec) (secret now : Nat) (t : Token) :
    protect users secret now (some t) =
      if t.sig ≠ hmacSign secret t.payloadId t.iat t.exp then
        .err 401 "Not authorized, invalid token"
      else if t.exp ≤ now then .err 401 "Not authorized, token expired"
      else
        match users.find? (fun v => v.id == t.payloadId) with
        | none => .err 401 "Not authorized, user not found"
        | some u => .ok (toPrincipal u) := by
  by_cases hsig : t.sig = hmacSign secret t.payloadId t.iat t.exp
  · by_cases hexp : t.exp ≤ now
    · simp [protect, jwtVerify, hsig, hexp]
    · simp [protect, jwtVerify, hsig, hexp]
  · simp [protect, jwtVerify, hsig]

/-- C3: the guard answers 401 exactly when the request lacks a token,
the signature fails to verify, the token is expired, or the subject user
no longer exists; every rejection carries status 401; and on a valid
unexpired token of an existing user the request proceeds with exactly
that user, stripped of the password field, as principal. -/
theorem auth_gate_correctness (users : List UserRec) (secret now : Nat)
    (tok? : Option Token) (tk : Token) (u : UserRec) :
    ((∃ s m, protect users secret now tok? = .err s m) ↔
      (tok? = none ∨ ∃ t, tok? = some t ∧
        (t.sig ≠ hmacSign secret t.payloadId t.iat t.exp ∨ t.exp ≤ now ∨
          users.find? (fun v => v.id == t.payloadId) = none))) ∧
    (∀ s m, protect users secret now tok? = .err s m → s = 401) ∧
    (tok? = some tk → tk.sig = hmacSign secret tk.payloadId tk.iat tk.exp →
      now < tk.exp → users.find? (fun v => v.id == tk.payloadId) = some u →
      protect users secret now tok? = .ok (toPrincipal u)) := by
  refine ⟨⟨?_, ?_⟩, ?_, ?_⟩
  · rintro ⟨s, m, hp⟩
    cases tok? with
    | none => exact Or.inl rfl
    | some t =>
        refine Or.inr ⟨t, rfl, ?_⟩
        rw [protect_some] at hp
        by_cases hsig : t.sig = hmacSign secret t.payloadId t.iat t.exp
        · by_cases hexp : t.exp ≤ now
          · exact Or.inr (Or.inl hexp)
          · refine Or.inr (Or.inr ?_)
            rw [if_neg (not_not_intro hsig), if_neg hexp] at hp
            cases hfind : users.find? (fun v => v.id == t.payloadId) with
            | none => rfl
            | some u' => rw [hfind] at hp; cases hp
        · exact Or.inl hsig
  · rintro (rfl | ⟨t, rfl, hbad⟩)
    · exact ⟨401, _, rfl⟩
    · rw [protect_some]
      by_cases hsig : t.sig = hmacSign secret t.payloadId t.iat t.exp
      · rw [if_neg (not_not_intro hsig)]
        by_cases hexp : t.exp ≤ now
        · rw [if_pos hexp]
          exact ⟨401, _, rfl⟩
        · rcases hbad with h | h | h
          · exact absurd hsig h
          · exact absurd h hexp
          · rw [if_neg hexp, h]
            exact ⟨401, _, rfl⟩
      · rw [if_pos hsig]
        exact ⟨401, _, rfl⟩
  · intro s m hp
    cases tok? with
    | none =>
        injection hp with h1 h2
        exact h1.symm
    | some t =>
        rw [protect_some] at hp
        split at hp
        · injection hp with h1 h2
          exact h1.symm
        · split at hp
          · injection hp with h1 h2
            exact h1.symm
          · split at hp
            · injection hp with h1 h2
              exact h1.symm
            · cases hp
  · rintro rfl hsig hexp hfind
    rw [protect_some, if_neg (not_not_intro hsig), if_neg (not_le.mpr hexp), hfind]

/-- C3 witness: a fresh token for the stored user, verified at issuance
time, resolves to that user's principal. -/
theorem auth_gate_correctness_witness :
    protect [wUser] 99 50 (some (generateToken 99 50 "dddddddddddddddddddddddd")) =
      .ok (toPrincipal wUser) :=
  (auth_gate_correctness [wUser] 99 50
      (some (generateToken 99 50 "dddddddddddddddddddddddd"))
      (generateToken 99 50 "dddddddddddddddddddddddd") wUser).2.2
    rfl rfl (by decide) (by decide)

end TaskFlow
